import Mathlib

/-!
Verification of the tool abstraction and serving layer of the Hytale-Toolkit
RAG server (`hytale-rag`).  Pure functions are translated directly from the
TypeScript source; the tool registry and the Voyage embedding provider are not
part of the available source slice (only their callers are), so they are
modelled from the specification, as marked in their doc comments.
Asynchrony, rate-limit delays and progress callbacks are timing behaviour and
are elided; JavaScript numbers are modelled as rationals.
-/

namespace HytaleRag

/-- The `ToolResult<T>` discriminated union from the core tool layer:
`{success:true, data}` or `{success:false, error}`. -/
inductive ToolResult (T : Type) where
  | ok (data : T)
  | err (error : String)
deriving DecidableEq

/-- The `success` discriminant of a `ToolResult`. -/
def ToolResult.success {T : Type} : ToolResult T → Bool
  | .ok _ => true
  | .err _ => false

/-- Outcome of running a tool handler: either it returns a `ToolResult`, or it
throws an exception with a message.  Used to model the fact that a TypeScript
handler may throw. -/
inductive HandlerOutcome (T : Type) where
  | returns (r : ToolResult T)
  | throws (msg : String)

/-- Modelled from the spec: `ToolDefinition` (core/tools/index.ts is not under
src/).  `{name, description, inputSchema, handler}`; the schema is represented
by the runtime validator it translates to (`validate`), which either rejects
the raw input with a field-level message or produces the validated input.
The `description` string plays no role in the claims and is elided. -/
structure ToolDef (Raw Inp Ctx T : Type) where
  name : String
  validate : Raw → Except String Inp
  handler : Inp → Ctx → HandlerOutcome T

/-- A registry is the ordered collection of registered tool definitions. -/
abbrev Registry (Raw Inp Ctx T : Type) : Type := List (ToolDef Raw Inp Ctx T)

/-- Modelled from the spec: `ToolRegistry.register` (core/tools/index.ts is not
under src/).  Fails with `DuplicateToolError` if a tool with the same name is
already present; otherwise appends the definition in registration order.  On
failure the registry value held by the caller is unchanged. -/
def register {Raw Inp Ctx T : Type} (reg : Registry Raw Inp Ctx T)
    (d : ToolDef Raw Inp Ctx T) : Except String (Registry Raw Inp Ctx T) :=
  if reg.any (fun e => e.name == d.name) then
    .error ("DuplicateToolError: " ++ d.name)
  else
    .ok (reg ++ [d])

/-- Modelled from the spec: `ToolRegistry.get` — look a tool up by name. -/
def getTool {Raw Inp Ctx T : Type} (reg : Registry Raw Inp Ctx T)
    (name : String) : Option (ToolDef Raw Inp Ctx T) :=
  reg.find? (fun e => e.name == name)

/-- Modelled from the spec: `ToolRegistry.invoke` (core/tools/index.ts is not
under src/).  Look the tool up (absent → `UnknownTool` failure), validate the
raw input (failure → `ToolResult{success:false}` with the field-level
message), run the handler, and catch anything the handler throws, wrapping it
into `ToolResult{success:false, error: message}`.  Totality of this function
is the "never throws to the caller" guarantee. -/
def invoke {Raw Inp Ctx T : Type} (reg : Registry Raw Inp Ctx T)
    (name : String) (raw : Raw) (ctx : Ctx) : ToolResult T :=
  match getTool reg name with
  | none => .err ("UnknownTool: " ++ name)
  | some d =>
    match d.validate raw with
    | .error m => .err m
    | .ok inp =>
      match d.handler inp ctx with
      | .returns r => r
      | .throws m => .err m

/-- Modelled from the spec: `VoyageEmbeddingProvider.embedBatch` splits the
input texts into fixed-size batches (providers/embedding/voyage.ts is not
under src/; its caller `embedChunks` is).  `splitBatches b l` cuts `l` into
consecutive runs of length `b` (the final run may be shorter); a batch size of
`0` degenerates to singleton batches so that the function stays total. -/
def splitBatches {α : Type} : Nat → List α → List (List α)
  | _, [] => []
  | b, x :: xs => (x :: xs.take (b - 1)) :: splitBatches b (xs.drop (b - 1))
termination_by _ l => l.length
decreasing_by
  simp only [List.length_drop, List.length_cons]
  omega

/-- Modelled from the spec: `VoyageEmbeddingProvider.embedBatch` (not under
src/).  The provider is called once per batch (`g` is one provider call on a
list of texts) and the per-batch results are concatenated in call order.
Rate-limit delays between batches and the `onProgress` callback only affect
timing and are elided. -/
def embedBatch {α V : Type} (g : List α → List V) (batchSize : Nat)
    (texts : List α) : List V :=
  ((splitBatches batchSize texts).map g).flatten

theorem splitBatches_flatten {α : Type} (b : Nat) (l : List α) :
    (splitBatches b l).flatten = l := by
  generalize hn : l.length = n
  induction n using Nat.strong_induction_on generalizing l with
  | _ n ih =>
    match l with
    | [] => simp [splitBatches]
    | x :: xs =>
      rw [splitBatches]
      have hlt : (xs.drop (b - 1)).length < n := by
        simp only [List.length_drop]
        simp only [List.length_cons] at hn
        omega
      simp only [List.flatten_cons, ih _ hlt (xs.drop (b - 1)) rfl, List.cons_append,
        List.take_append_drop]

namespace Db

/-- A raw result row as returned by the LanceDB engine for
`table.vectorSearch(queryVector).limit(limit)` in `db.ts`.  The ANN engine
itself is an out-of-scope collaborator; it attaches a `_distance` field
(modelled as `dist`, an optional rational since the field may be absent) to
each row of the code table. -/
structure RawCodeHit where
  id : String
  className : String
  packageName : String
  methodName : String
  methodSignature : String
  content : String
  filePath : String
  lineStart : Int
  lineEnd : Int
  dist : Option ℚ

/-- `SearchResult` from `db.ts`: a code-table hit with its similarity score. -/
structure SearchResult where
  id : String
  className : String
  packageName : String
  methodName : String
  methodSignature : String
  content : String
  filePath : String
  lineStart : Int
  lineEnd : Int
  score : ℚ

/-- JavaScript `row._distance || 0` from `db.ts` line 144: an absent
`_distance` and a zero `_distance` are both falsy and both produce `0`. -/
def distOrZero : Option ℚ → ℚ
  | none => 0
  | some d => d

/-- The per-row mapping in `db.ts` `search` (lines 134-145): copy the payload
fields and convert distance to a similarity score via
`score: 1 - (row._distance || 0)`. -/
def searchRow (row : RawCodeHit) : SearchResult :=
  { id := row.id
    className := row.className
    packageName := row.packageName
    methodName := row.methodName
    methodSignature := row.methodSignature
    content := row.content
    filePath := row.filePath
    lineStart := row.lineStart
    lineEnd := row.lineEnd
    score := 1 - distOrZero row.dist }

/-- `search` from `db.ts` (lines 116-146), applied to the raw rows the LanceDB
engine returned for `vectorSearch(queryVector).limit(limit)` (plus the
optional `where` filter).  The engine contract — at most `limit` rows, sorted
by non-decreasing `_distance` — is stated as hypotheses of the theorems. -/
def search (results : List RawCodeHit) : List SearchResult :=
  results.map searchRow

/-- The paged full-table scan of `db.ts` `getStats` (lines 164-178):
`table.query().limit(batchSize).offset(offset)` yields the slice
`(rows.drop offset).take batchSize`; the loop stops on an empty batch, stops
after a batch smaller than `batchSize`, and otherwise advances the offset by
the number of rows returned.  Returns the list of visited batches. -/
def pageScan {α : Type} (batchSize : Nat) (rows : List α) (offset : Nat) :
    List (List α) :=
  if _h0 : ((rows.drop offset).take batchSize).length = 0 then []
  else if _h1 : ((rows.drop offset).take batchSize).length < batchSize then
    [(rows.drop offset).take batchSize]
  else
    (rows.drop offset).take batchSize ::
      pageScan batchSize rows (offset + ((rows.drop offset).take batchSize).length)
termination_by rows.length - offset
decreasing_by
  simp only [List.length_take, List.length_drop] at _h0 _h1 ⊢
  omega

/-- `DbStats` from `db.ts`. -/
structure DbStats where
  totalMethods : Nat
  uniqueClasses : Nat
  uniquePackages : Nat
deriving DecidableEq

/-- The two fields of a code-table row that `getStats` inspects (the table
rows carry many more fields; they do not influence the statistics). -/
structure CodeStatsRow where
  className : Option String
  packageName : Option String

/-- JavaScript truthiness filter `if (row.className) ...` from `db.ts` lines
172-173: an absent field and the empty string are both falsy. -/
def jsTruthy : Option String → Option String
  | none => none
  | some s => if s = "" then none else some s

/-- `getStats` from `db.ts` (lines 151-185): `totalMethods` is the store's row
count; the class and package sets are accumulated over the batches of the
paged scan with batch size 5000, and their cardinalities reported. -/
def getStats (rows : List CodeStatsRow) : DbStats :=
  let visited := (pageScan 5000 rows 0).flatten
  { totalMethods := rows.length
    uniqueClasses := ((visited.filterMap fun r => jsTruthy r.className).dedup).length
    uniquePackages := ((visited.filterMap fun r => jsTruthy r.packageName).dedup).length }

end Db

/-- The valid documentation types of `DOCS_TYPES` in `core/schemas.ts`. -/
def DOCS_TYPES : List String := ["all", "guide", "reference", "faq", "example"]

/-- Raw (unvalidated) input to the docs search tool: each field may be absent.
A present `limit` is a JavaScript number, modelled as a rational. -/
structure RawDocsInput where
  query : Option String
  limit : Option ℚ
  type : Option String

/-- Validated input of `searchDocsSchema` (`SearchDocsInput`).  The zod parse
always populates `limit` and `type` via their defaults, but the TypeScript
handler still reads `input.limit ?? 5`, so `limit` is kept optional here to
mirror the handler. -/
structure SearchDocsInput where
  query : String
  type : String
  limit : Option ℚ

/-- Field-level message for a missing `query`. -/
def queryRequiredMsg : String := "query: Required"

/-- Field-level message for an empty `query` (zod `.min(1)` on the string). -/
def queryMinMsg : String := "query: String must contain at least 1 character(s)"

/-- Field-level message for a non-integer `limit` (zod `.int()`). -/
def limitIntMsg : String := "limit: Expected integer, received float"

/-- Field-level message for `limit` below 1 (zod `.min(1)`). -/
def limitMinMsg : String := "limit: Number must be greater than or equal to 1"

/-- Field-level message for `limit` above 20 (zod `.max(20)`). -/
def limitMaxMsg : String := "limit: Number must be less than or equal to 20"

/-- Field-level message for a `type` outside `DOCS_TYPES` (zod `.enum`). -/
def typeInvalidMsg : String := "type: Invalid enum value"

/-- The runtime validator that `searchDocsSchema` (`core/schemas.ts`) denotes
under zod semantics: `query` is a required string of length at least 1;
`limit` is an optional integer number that must lie in `[1,20]` — an
out-of-range value is a parse failure, not a clamp — defaulting to `5` when
omitted; `type` is an optional member of `DOCS_TYPES` defaulting to `"all"`.
zod reports per-field issues; this model returns the first failing field's
message. -/
def validateSearchDocs (raw : RawDocsInput) : Except String SearchDocsInput :=
  match raw.query with
  | none => .error queryRequiredMsg
  | some q =>
    if q.length < 1 then .error queryMinMsg
    else
      match raw.limit with
      | none =>
        match raw.type with
        | none => .ok ⟨q, "all", some 5⟩
        | some t =>
          if DOCS_TYPES.contains t then .ok ⟨q, t, some 5⟩
          else .error typeInvalidMsg
      | some n =>
        if n.den ≠ 1 then .error limitIntMsg
        else if n < 1 then .error limitMinMsg
        else if 20 < n then .error limitMaxMsg
        else
          match raw.type with
          | none => .ok ⟨q, "all", some n⟩
          | some t =>
            if DOCS_TYPES.contains t then .ok ⟨q, t, some n⟩
            else .error typeInvalidMsg

/-- The handler-side clamp from `search-docs.ts` line 32:
`Math.min(Math.max(1, limit), 20)`. -/
def clampLimit (l : ℚ) : ℚ := min (max 1 l) 20

/-- A record of the docs table as the docs tools see it: the two metadata
fields inspected by `docs_stats` plus the payload fields copied by
`search_hytale_docs`.  Optional strings model fields that may be absent
(or empty, which JavaScript treats identically via `||`). -/
structure DocsRecord where
  id : String
  type : Option String
  title : String
  filePath : String
  relativePath : String
  content : String
  category : Option String
  description : Option String

/-- A `SearchHit` from the vector store: the record payload plus the
similarity score. -/
structure SearchHit (α : Type) where
  data : α
  score : ℚ

/-- `DocsSearchResult` from `core/types.ts`. -/
structure DocsSearchResult where
  id : String
  type : Option String
  title : String
  filePath : String
  relativePath : String
  content : String
  category : Option String
  description : Option String
  score : ℚ

/-- The slice of `Config` the claims touch: `config.embedding.provider`,
`config.embedding.apiKey` (`none` models an unset or empty key, both falsy in
the TypeScript check), `config.server.mode` and `config.tables.docs`. -/
structure Config where
  provider : String
  apiKey : Option String
  serverMode : String
  docsTable : String

/-- `ToolContext` from the core tool layer: the embedding provider (absent
when configuration failed; modelled as the `embedQuery` function
`text ↦ purpose ↦ vector`), the vector store (its tables as a name-indexed
association list, and its `search` operation as a function of table name,
query vector, limit and optional type filter), the configuration, and the
startup configuration error, if any. -/
structure ToolContext where
  embedding : Option (String → String → List ℚ)
  tables : List (String × List DocsRecord)
  searchFn : String → List ℚ → ℚ → Option String → List (SearchHit DocsRecord)
  config : Config
  configError : Option String

/-- `VectorStore.tableExists`, over the modelled store state. -/
def tableExists (ctx : ToolContext) (name : String) : Bool :=
  (ctx.tables.lookup name).isSome

/-- Rows of a table in the modelled store (empty for a missing table; the
docs tools only read a table after `tableExists` succeeded). -/
def tableRows (ctx : ToolContext) (name : String) : List DocsRecord :=
  (ctx.tables.lookup name).getD []

/-- `VectorStore.queryAll`: the lazy paged full-table scan, with the same
5000-row paging as the concrete scan in `db.ts`. -/
def queryAll (rows : List DocsRecord) : List (List DocsRecord) :=
  Db.pageScan 5000 rows 0

/-- JavaScript `x || dflt` for an optional string: absent and empty are both
falsy (used for `row.category || "Other"` and `row.type || "unknown"`). -/
def jsOr (s : Option String) (dflt : String) : String :=
  match s with
  | none => dflt
  | some v => if v = "" then dflt else v

/-- The `search_hytale_docs` handler from `core/tools/search-docs.ts`: check
`configError` and the presence of the embedding provider first; clamp the
limit; embed the query with purpose `"text"`; build the type filter unless
`type` is `"all"`; run the store search on `config.tables.docs`; copy each
hit's payload fields together with its score. -/
def searchDocsHandler (input : SearchDocsInput) (ctx : ToolContext) :
    ToolResult (List DocsSearchResult) :=
  match ctx.configError with
  | some e => .err e
  | none =>
    match ctx.embedding with
    | none => .err "Embedding provider not configured"
    | some embedQuery =>
      let lim := clampLimit ((input.limit).getD 5)
      let queryVector := embedQuery input.query "text"
      let filter := if input.type ≠ "all" then some input.type else none
      let results := ctx.searchFn ctx.config.docsTable queryVector lim filter
      .ok (results.map fun r =>
        { id := r.data.id
          type := r.data.type
          title := r.data.title
          filePath := r.data.filePath
          relativePath := r.data.relativePath
          content := r.data.content
          category := r.data.category
          description := r.data.description
          score := r.score })

/-- `DocsStats` from `core/tools/docs-stats.ts`; the `byCategory`/`byType`
records are modelled as total count functions (a key never seen has count 0,
matching an absent record entry). -/
structure DocsStats where
  totalDocs : Nat
  byCategory : String → Nat
  byType : String → Nat

/-- The error message of `docs-stats.ts` lines 45-48 for a missing table. -/
def docsTableMissingMsg : String :=
  "Documentation table not found. Run \x27npm run ingest-docs\x27 to index the documentation."

/-- One step of the counting loop body of `docs-stats.ts` lines 59-65,
folded over a record-as-function: `counts[key] = (counts[key] || 0) + 1`. -/
def bump (counts : String → Nat) (key : String) : String → Nat :=
  fun k => if k = key then counts key + 1 else counts k

/-- The `hytale_docs_stats` handler from `core/tools/docs-stats.ts`: check
`configError`; check `tableExists` and answer with the ingestion hint when the
table is missing; otherwise take `rowCount` from `getStats` and fold the
per-row category/type counting over every batch of `queryAll`. -/
def docsStatsHandler (ctx : ToolContext) : ToolResult DocsStats :=
  match ctx.configError with
  | some e => .err e
  | none =>
    let tableName := ctx.config.docsTable
    if tableExists ctx tableName then
      let rows := tableRows ctx tableName
      let visited := (queryAll rows).flatten
      .ok
        { totalDocs := rows.length
          byCategory := visited.foldl (fun acc row => bump acc (jsOr row.category "Other"))
            (fun _ => 0)
          byType := visited.foldl (fun acc row => bump acc (jsOr row.type "unknown"))
            (fun _ => 0) }
    else
      .err docsTableMissingMsg

/-- `validateApiKeyFormat` from `index.ts` lines 63-77.  The message strings
interpolate the first three characters of the supplied key. -/
def validateApiKeyFormat (provider apiKey : String) : Option String :=
  if provider = "voyage" then
    if apiKey.startsWith "pa-" then none
    else some ("Invalid Voyage API key format. Voyage API keys should start with \"pa-\".\n\nYour key starts with: \"" ++ apiKey.take 3 ++ "...\"\n\nGet a valid API key at https://www.voyageai.com/ and update your .env file.")
  else if provider = "openai" then
    if apiKey.startsWith "sk-" then none
    else some ("Invalid OpenAI API key format. OpenAI API keys should start with \"sk-\".\n\nYour key starts with: \"" ++ apiKey.take 3 ++ "...\"\n\nCheck your API key and update your .env file.")
  else none

/-- The environment-variable name used in the missing-key message of
`index.ts` lines 95-100. -/
def envVarFor (provider : String) : String :=
  if provider = "voyage" then "VOYAGE_API_KEY"
  else if provider = "openai" then "OPENAI_API_KEY"
  else provider.toUpper ++ "_API_KEY"

/-- The missing-key message of `index.ts` line 102. -/
def apiKeyNotConfiguredMsg (envVar : String) : String :=
  "API key not configured. Get a free Voyage API key at https://www.voyageai.com/ and add it to your .env file:\n\n" ++ envVar ++ "=your-key-here\n\nThen restart Claude Code."

/-- The `configError` computation of `main` (`index.ts` lines 87-109).  The
`.env`-file sanity scan (`checkEnvFile`) reads the filesystem and is passed in
as its result `envFileError`. -/
def computeConfigError (envFileError : Option String) (cfg : Config) :
    Option String :=
  match envFileError with
  | some e => some e
  | none =>
    match cfg.apiKey with
    | none => some (apiKeyNotConfiguredMsg (envVarFor cfg.provider))
    | some key => validateApiKeyFormat cfg.provider key

/-- Outcome of process startup: either `main` reports the error and calls
`process.exit(1)`, or the process keeps running with the constructed
`ToolContext`. -/
inductive StartupOutcome where
  | exitWithError (msg : String)
  | running (ctx : ToolContext)

/-- The startup decision of `main` (`index.ts` lines 82-157): compute
`configError`; if it is set and the server mode is not `"mcp"`, report and
exit; otherwise build the `ToolContext`, creating the embedding provider
(`mkEmbedding`, a collaborator factory) only when there is no config error and
an API key is present.  Store contents and the store search function are the
collaborator state wired into the context. -/
def mainStartup (envFileError : Option String) (cfg : Config)
    (mkEmbedding : String → String → List ℚ)
    (tables : List (String × List DocsRecord))
    (searchFn : String → List ℚ → ℚ → Option String → List (SearchHit DocsRecord)) :
    StartupOutcome :=
  let configError := computeConfigError envFileError cfg
  match configError with
  | some e =>
    if cfg.serverMode = "mcp" then
      .running { embedding := none, tables, searchFn, config := cfg, configError := some e }
    else
      .exitWithError e
  | none =>
    .running
      { embedding := match cfg.apiKey with | some _ => some mkEmbedding | none => none
        tables, searchFn, config := cfg, configError := none }

/-- A sample tool over numeric payloads: input `0` fails validation, input `1`
makes the handler throw, anything else succeeds. -/
def sampleTool : ToolDef Nat Nat Nat Nat :=
  { name := "tool0"
    validate := fun n => if n = 0 then .error "bad input" else .ok n
    handler := fun i _ => if i = 1 then .throws "boom" else .returns (.ok i) }

/-- A second sample tool carrying the same name as `sampleTool`. -/
def sampleTool2 : ToolDef Nat Nat Nat Nat :=
  { name := "tool0"
    validate := fun n => .ok n
    handler := fun i _ => .returns (.ok i) }

/-- A raw code-table hit whose reported distance is 2 (distances are not
normalized; L2 and cosine distances exceed 1). -/
def bigDistHit : Db.RawCodeHit :=
  { id := "m1", className := "C", packageName := "p", methodName := "m"
    methodSignature := "void m()", content := "", filePath := "C.java"
    lineStart := 1, lineEnd := 2, dist := some 2 }

/-- A raw code-table hit for which the store reported no `_distance`. -/
def noneDistHit : Db.RawCodeHit :=
  { id := "m2", className := "C", packageName := "p", methodName := "m2"
    methodSignature := "void m2()", content := "", filePath := "C.java"
    lineStart := 3, lineEnd := 4, dist := none }

/-- A raw code-table hit with `_distance` equal to 0. -/
def zeroDistHit : Db.RawCodeHit :=
  { id := "m3", className := "C", packageName := "p", methodName := "m3"
    methodSignature := "void m3()", content := "", filePath := "C.java"
    lineStart := 5, lineEnd := 6, dist := some 0 }

/-- A raw code-table hit with `_distance` equal to 1. -/
def oneDistHit : Db.RawCodeHit :=
  { id := "m4", className := "C", packageName := "p", methodName := "m4"
    methodSignature := "void m4()", content := "", filePath := "C.java"
    lineStart := 7, lineEnd := 8, dist := some 1 }

/-- A configuration with no API key, in MCP server mode. -/
def sampleCfgMcp : Config :=
  { provider := "voyage", apiKey := none, serverMode := "mcp", docsTable := "hytale_docs" }

/-- A configuration with no API key, in REST server mode. -/
def sampleCfgRest : Config :=
  { provider := "voyage", apiKey := none, serverMode := "rest", docsTable := "hytale_docs" }

/-- A well-formed configuration (Voyage key of the expected shape, MCP mode). -/
def sampleCfgOk : Config :=
  { provider := "voyage", apiKey := some "pa-key", serverMode := "mcp", docsTable := "hytale_docs" }

/-- A seeded docs record: one guide in the plugin category. -/
def sampleDocRow : DocsRecord :=
  { id := "guide:plugin/x", type := some "guide", title := "T", filePath := "f"
    relativePath := "r", content := "c", category := some "plugin", description := none }

/-- A store search function returning no hits (its value is irrelevant to the
claims exercised with it). -/
def emptySearchFn : String → List ℚ → ℚ → Option String → List (SearchHit DocsRecord) :=
  fun _ _ _ _ => []

/-- A context whose docs table holds exactly `sampleDocRow`. -/
def seededCtx : ToolContext :=
  { embedding := some (fun _ _ => [1])
    tables := [("hytale_docs", [sampleDocRow])]
    searchFn := emptySearchFn, config := sampleCfgOk, configError := none }

/-- A context whose store holds no tables at all. -/
def unseededCtx : ToolContext :=
  { embedding := some (fun _ _ => [1]), tables := []
    searchFn := emptySearchFn, config := sampleCfgOk, configError := none }

/-- The `search_hytale_docs` tool definition: the zod validator of
`searchDocsSchema` together with the handler from `search-docs.ts` (which
returns and never throws). -/
def searchDocsToolDef : ToolDef RawDocsInput SearchDocsInput ToolContext (List DocsSearchResult) :=
  { name := "search_hytale_docs"
    validate := validateSearchDocs
    handler := fun i c => .returns (searchDocsHandler i c) }

theorem pageScan_flatten {α : Type} (b : Nat) (hb : 0 < b) (rows : List α)
    (offset : Nat) : (Db.pageScan b rows offset).flatten = rows.drop offset := by
  suffices H : ∀ n offset, rows.length - offset = n →
      (Db.pageScan b rows offset).flatten = rows.drop offset from H _ offset rfl
  intro n
  induction n using Nat.strong_induction_on with
  | _ n ih =>
    intro offset hn
    unfold Db.pageScan
    split
    · rename_i h0
      simp only [List.length_take, List.length_drop] at h0
      have hdrop : rows.length ≤ offset := by omega
      simp [List.drop_eq_nil_of_le hdrop]
    · rename_i h0
      split
      · rename_i h1
        simp only [List.length_take, List.length_drop] at h0 h1
        have hle : (rows.drop offset).length ≤ b := by
          simp only [List.length_drop]; omega
        simp [List.take_of_length_le hle]
      · rename_i h1
        simp only [List.length_take, List.length_drop] at h0 h1
        have hlen : ((rows.drop offset).take b).length = b := by
          simp only [List.length_take, List.length_drop]; omega
        rw [hlen, List.flatten_cons,
          ih (rows.length - (offset + b)) (by omega) (offset + b) rfl,
          ← List.drop_drop]
        exact List.take_append_drop b (rows.drop offset)

theorem pageScan_batches {α : Type} (b : Nat) (rows : List α) (offset : Nat) :
    ∀ batch ∈ Db.pageScan b rows offset, batch ≠ [] ∧ batch.length ≤ b := by
  suffices H : ∀ n offset, rows.length - offset = n →
      ∀ batch ∈ Db.pageScan b rows offset, batch ≠ [] ∧ batch.length ≤ b from
    H _ offset rfl
  intro n
  induction n using Nat.strong_induction_on with
  | _ n ih =>
    intro offset hn
    unfold Db.pageScan
    split
    · simp
    · rename_i h0
      split
      · rename_i h1
        intro batch hbatch
        simp only [List.mem_singleton] at hbatch
        subst hbatch
        refine ⟨fun hnil => h0 (by simp [hnil]), ?_⟩
        simp only [List.length_take, List.length_drop]
        omega
      · rename_i h1
        intro batch hbatch
        rcases List.mem_cons.mp hbatch with hhead | htail
        · subst hhead
          refine ⟨fun hnil => h0 (by simp [hnil]), ?_⟩
          simp only [List.length_take, List.length_drop]
          omega
        simp only [List.length_take, List.length_drop] at h0 h1
        · have hlen : ((rows.drop offset).take b).length = b := by
            simp only [List.length_take, List.length_drop]; omega
          rw [hlen] at htail
          exact ih (rows.length - (offset + b)) (by omega) (offset + b) rfl batch htail

/-- C1: for every registered tool name and every raw input, `Registry.invoke`
never throws to its caller (it is a total function into `ToolResult`): a
validation failure is returned as `ToolResult{success:false}` carrying the
field-level message, and if the handler itself throws, the registry catches
the exception and wraps it into `ToolResult{success:false, error: message}`. -/
theorem invoke_never_throws {Raw Inp Ctx T : Type} (reg : Registry Raw Inp Ctx T)
    (name : String) (d : ToolDef Raw Inp Ctx T) (raw : Raw) (ctx : Ctx)
    (hd : getTool reg name = some d) :
    (∀ m, d.validate raw = .error m →
      invoke reg name raw ctx = .err m ∧ (invoke reg name raw ctx).success = false) ∧
    (∀ i m, d.validate raw = .ok i → d.handler i ctx = .throws m →
      invoke reg name raw ctx = .err m ∧ (invoke reg name raw ctx).success = false) := by
  have hinv : invoke reg name raw ctx =
      (match d.validate raw with
       | .error m => ToolResult.err m
       | .ok inp =>
         match d.handler inp ctx with
         | .returns r => r
         | .throws m => ToolResult.err m) := by
    unfold invoke
    rw [hd]
  constructor
  · intro m hm
    rw [hinv, hm]
    exact ⟨rfl, rfl⟩
  · intro i m hi hm
    have h2 : invoke reg name raw ctx =
        (match d.handler i ctx with
         | .returns r => r
         | .throws m => ToolResult.err m) := by
      rw [hinv, hi]
    rw [h2, hm]
    exact ⟨rfl, rfl⟩

theorem invoke_never_throws_witness :
    invoke [sampleTool] "tool0" 0 0 = ToolResult.err "bad input" ∧
    invoke [sampleTool] "tool0" 1 0 = ToolResult.err "boom" := by
  have h0 := invoke_never_throws [sampleTool] "tool0" sampleTool 0 0 rfl
  have h1 := invoke_never_throws [sampleTool] "tool0" sampleTool 1 0 rfl
  exact ⟨(h0.1 "bad input" rfl).1, (h1.2 1 "boom" rfl rfl).1⟩

/-- C8: registering two `ToolDefinition`s with the same name fails with a
duplicate-registration error, and the registry the caller holds after the
failed second registration still contains exactly the first registration. -/
theorem register_duplicate {Raw Inp Ctx T : Type} (d1 d2 : ToolDef Raw Inp Ctx T)
    (h : d2.name = d1.name) :
    register ([] : Registry Raw Inp Ctx T) d1 = .ok [d1] ∧
    register [d1] d2 = .error ("DuplicateToolError: " ++ d2.name) ∧
    getTool [d1] d1.name = some d1 := by
  refine ⟨rfl, ?_, ?_⟩
  · simp [register, h]
  · simp [getTool, List.find?]

theorem register_duplicate_witness :
    register ([] : Registry Nat Nat Nat Nat) sampleTool = .ok [sampleTool] ∧
    register [sampleTool] sampleTool2 = .error "DuplicateToolError: tool0" ∧
    getTool [sampleTool] "tool0" = some sampleTool := by
  have h := register_duplicate sampleTool sampleTool2 rfl
  exact ⟨h.1, h.2.1, h.2.2⟩

/-- C4: `embedBatch` is positionally aligned with its input — given a provider
whose per-batch call embeds each text independently (`g l = l.map f`), the
concatenation of batch results in call order equals `texts.map f`, whatever
the batch size, so batchSize 1 and batchSize 128 yield identical vector
ordering. -/
theorem embedBatch_order_preserving {α V : Type} (g : List α → List V)
    (f : α → V) (hg : ∀ l, g l = l.map f) (batchSize : Nat) (texts : List α) :
    embedBatch g batchSize texts = texts.map f ∧
    embedBatch g 1 texts = embedBatch g 128 texts := by
  have key : ∀ c : Nat, embedBatch g c texts = texts.map f := by
    intro c
    unfold embedBatch
    have hmap : (splitBatches c texts).map g = (splitBatches c texts).map (List.map f) :=
      List.map_congr_left fun l _ => hg l
    rw [hmap, ← List.map_flatten, splitBatches_flatten]
  exact ⟨key batchSize, (key 1).trans (key 128).symm⟩

theorem embedBatch_order_preserving_witness :
    embedBatch (fun l : List Nat => l.map (fun n => n + 1)) 2 [3, 4, 5] = [4, 5, 6] ∧
    embedBatch (fun l : List Nat => l.map (fun n => n + 1)) 1 [3, 4, 5] =
      embedBatch (fun l : List Nat => l.map (fun n => n + 1)) 128 [3, 4, 5] := by
  have h := embedBatch_order_preserving (fun l : List Nat => l.map (fun n => n + 1))
    (fun n => n + 1) (fun _ => rfl) 2 [3, 4, 5]
  exact ⟨h.1, h.2⟩

theorem limit_out_of_range_rejected_cex :
    invoke [searchDocsToolDef] "search_hytale_docs"
        ⟨some "player", some 25, none⟩ seededCtx = ToolResult.err limitMaxMsg ∧
    (invoke [searchDocsToolDef] "search_hytale_docs"
        ⟨some "player", some 25, none⟩ seededCtx).success = false := by
  constructor <;> rfl

/-- C2(amended): a numeric `limit` outside `[1,20]` fails schema validation —
the invocation returns `ToolResult{success:false}` with a field-level message
rather than running the search on a clamped limit.  The handler-internal clamp
`Math.min(Math.max(1, limit), 20)` does map every number into `[1,20]` (and is
the identity on values that passed validation), and an omitted `limit`
defaults to 5. -/
theorem limit_validation_and_clamp (q : String) (l : ℚ) (hq : 1 ≤ q.length) :
    ((l < 1 ∨ 20 < l) →
      ∃ m, validateSearchDocs ⟨some q, some l, none⟩ = .error m) ∧
    (1 ≤ clampLimit l ∧ clampLimit l ≤ 20) ∧
    ((1 ≤ l → l ≤ 20 → clampLimit l = l)) ∧
    (∃ out, validateSearchDocs ⟨some q, none, none⟩ = .ok out ∧
      out.limit = some 5) := by
  have hql : ¬ q.length < 1 := by omega
  refine ⟨?_, ⟨?_, ?_⟩, ?_, ?_⟩
  · intro hl
    by_cases hden : l.den = 1
    · by_cases hlt : l < 1
      · exact ⟨limitMinMsg, by simp [validateSearchDocs, hql, hden, hlt]⟩
      · have h20 : 20 < l := hl.resolve_left hlt
        exact ⟨limitMaxMsg, by simp [validateSearchDocs, hql, hden, hlt, h20]⟩
    · exact ⟨limitIntMsg, by simp [validateSearchDocs, hql, hden]⟩
  · exact le_min (le_max_left 1 l) (by norm_num)
  · exact min_le_right _ _
  · intro h1 h20
    simp [clampLimit, max_eq_right h1, min_eq_left h20]
  · exact ⟨⟨q, "all", some 5⟩, by simp [validateSearchDocs, hql], rfl⟩

theorem limit_validation_and_clamp_witness :
    (∃ m, validateSearchDocs ⟨some "player", some 25, none⟩ = .error m) ∧
    1 ≤ clampLimit 25 ∧ clampLimit 25 ≤ 20 ∧ clampLimit 7 = 7 ∧
    (∃ out, validateSearchDocs ⟨some "player", none, none⟩ = .ok out ∧
      out.limit = some 5) := by
  have h := limit_validation_and_clamp "player" 25 (by decide)
  have h7 := limit_validation_and_clamp "player" 7 (by decide)
  exact ⟨h.1 (Or.inr (by norm_num)), h.2.1.1, h.2.1.2,
    h7.2.2.1 (by norm_num) (by norm_num), h.2.2.2⟩

theorem search_score_range_cex :
    0 ≤ Db.distOrZero bigDistHit.dist ∧
    ¬ (∀ s ∈ Db.search [bigDistHit], 0 ≤ s.score ∧ s.score ≤ 1) := by
  constructor
  · norm_num [bigDistHit, Db.distOrZero]
  · intro hall
    have hmem : Db.searchRow bigDistHit ∈ Db.search [bigDistHit] := by
      simp [Db.search]
    have := (hall _ hmem).1
    norm_num [Db.searchRow, bigDistHit, Db.distOrZero] at this

/-- C3(amended): for raw engine output of at most `limit` rows sorted by
non-decreasing distance, `search` returns at most `limit` hits ordered by
non-increasing score, each hit's score is `1 - distance` (with 0 substituted
for an absent distance); a non-negative distance guarantees `score ≤ 1`, and
`score ∈ [0,1]` holds when the distance lies in `[0,1]` — but not for every
non-negative distance, since distances are not normalized (see the
counterexample with distance 2). -/
theorem search_sorted_bounded (raw : List Db.RawCodeHit) (limit : Nat)
    (hlen : raw.length ≤ limit)
    (hsorted : raw.Pairwise (fun a b => Db.distOrZero a.dist ≤ Db.distOrZero b.dist)) :
    (Db.search raw).length ≤ limit ∧
    (Db.search raw).Pairwise (fun a b => b.score ≤ a.score) ∧
    (Db.search raw).map Db.SearchResult.score =
      raw.map (fun r => 1 - Db.distOrZero r.dist) ∧
    (∀ r ∈ raw, ∀ d, r.dist = some d → (Db.searchRow r).score = 1 - d) ∧
    (∀ r ∈ raw, 0 ≤ Db.distOrZero r.dist → (Db.searchRow r).score ≤ 1) ∧
    (∀ r ∈ raw, 0 ≤ Db.distOrZero r.dist → Db.distOrZero r.dist ≤ 1 →
      0 ≤ (Db.searchRow r).score ∧ (Db.searchRow r).score ≤ 1) := by
  refine ⟨?_, ?_, ?_, ?_, ?_, ?_⟩
  · simpa [Db.search] using hlen
  · exact List.Pairwise.map _
      (fun a b hab => by simp only [Db.searchRow]; linarith) hsorted
  · simp [Db.search, Db.searchRow]
  · intro r _ d hd
    simp [Db.searchRow, hd, Db.distOrZero]
  · intro r _ h0
    simp only [Db.searchRow]
    linarith
  · intro r _ h0 h1
    constructor <;> (simp only [Db.searchRow]; linarith)

theorem search_sorted_bounded_witness :
    (Db.search [zeroDistHit, oneDistHit]).length ≤ 5 ∧
    (Db.search [zeroDistHit, oneDistHit]).Pairwise (fun a b => b.score ≤ a.score) ∧
    (Db.searchRow oneDistHit).score = 1 - 1 := by
  have h := search_sorted_bounded [zeroDistHit, oneDistHit] 5 (by decide)
    (by simp [List.pairwise_cons, zeroDistHit, oneDistHit, Db.distOrZero])
  exact ⟨h.1, h.2.1, h.2.2.2.1 oneDistHit (by simp) 1 rfl⟩

/-- C10: in the code-table search, a row whose reported `_distance` is absent
or 0 gets score exactly 1: the score computation substitutes 0 for a falsy
distance before applying `score = 1 - distance`, so such a row is
indistinguishable from an identical match. -/
theorem search_falsy_distance_score_one (raw : List Db.RawCodeHit)
    (r : Db.RawCodeHit) (hr : r ∈ raw) (h : r.dist = none ∨ r.dist = some 0) :
    Db.distOrZero r.dist = 0 ∧ (Db.searchRow r).score = 1 ∧
    Db.searchRow r ∈ Db.search raw := by
  have hd : Db.distOrZero r.dist = 0 := by
    rcases h with h | h <;> simp [h, Db.distOrZero]
  exact ⟨hd, by simp [Db.searchRow, hd], List.mem_map_of_mem _ hr⟩

theorem search_falsy_distance_score_one_witness :
    (Db.searchRow noneDistHit).score = 1 ∧ (Db.searchRow zeroDistHit).score = 1 ∧
    Db.searchRow noneDistHit ∈ Db.search [noneDistHit, zeroDistHit] := by
  have h1 := search_falsy_distance_score_one [noneDistHit, zeroDistHit]
    noneDistHit (by simp) (Or.inl rfl)
  have h2 := search_falsy_distance_score_one [noneDistHit, zeroDistHit]
    zeroDistHit (by simp) (Or.inr rfl)
  exact ⟨h1.2.1, h2.2.1, h1.2.2⟩

/-- C5: invoking the docs stats tool against a table that does not exist
returns `ToolResult{success:false}` whose error string is the fixed
remediation message naming the ingestion command `npm run ingest-docs` —
never a raw exception message. -/
theorem stats_missing_table (ctx : ToolContext) (hcfg : ctx.configError = none)
    (h : tableExists ctx ctx.config.docsTable = false) :
    docsStatsHandler ctx = .err docsTableMissingMsg ∧
    (docsStatsHandler ctx).success = false ∧
    ∃ before after, docsTableMissingMsg = before ++ "npm run ingest-docs" ++ after := by
  have hh : docsStatsHandler ctx = .err docsTableMissingMsg := by
    simp [docsStatsHandler, hcfg, h]
  refine ⟨hh, by rw [hh]; rfl,
    "Documentation table not found. Run \x27", "\x27 to index the documentation.", ?_⟩
  decide

theorem stats_missing_table_witness :
    docsStatsHandler unseededCtx = ToolResult.err docsTableMissingMsg ∧
    (docsStatsHandler unseededCtx).success = false := by
  have h := stats_missing_table unseededCtx rfl rfl
  exact ⟨h.1, h.2.1⟩

/-- C6: when `configError` is set at startup, every non-MCP server mode makes
`main` report the error and exit; in MCP mode startup proceeds with
`configError` stored in the `ToolContext` (and no embedding provider), and a
tool invocation that needs the embedding provider — the docs search handler —
checks `configError` first and returns
`ToolResult{success:false, error: configError}` without doing any work. -/
theorem config_error_propagation (envFileError : Option String) (cfg : Config)
    (mk : String → String → List ℚ) (tables : List (String × List DocsRecord))
    (searchFn : String → List ℚ → ℚ → Option String → List (SearchHit DocsRecord))
    (e : String) (h : computeConfigError envFileError cfg = some e) :
    (cfg.serverMode ≠ "mcp" →
      mainStartup envFileError cfg mk tables searchFn = .exitWithError e) ∧
    (cfg.serverMode = "mcp" →
      ∃ ctx, mainStartup envFileError cfg mk tables searchFn = .running ctx ∧
        ctx.configError = some e ∧ ctx.embedding = none) ∧
    (∀ ctx : ToolContext, ctx.configError = some e → ∀ inp,
      searchDocsHandler inp ctx = .err e ∧
      (searchDocsHandler inp ctx).success = false) := by
  refine ⟨?_, ?_, ?_⟩
  · intro hm
    simp [mainStartup, h, hm]
  · intro hm
    refine ⟨{ embedding := none, tables := tables, searchFn := searchFn
              config := cfg, configError := some e }, ?_, rfl, rfl⟩
    simp [mainStartup, h, hm]
  · intro ctx hc inp
    constructor <;> simp [searchDocsHandler, hc, ToolResult.success]

theorem config_error_propagation_witness :
    mainStartup none sampleCfgRest (fun _ _ => []) [] emptySearchFn =
      .exitWithError (apiKeyNotConfiguredMsg "VOYAGE_API_KEY") ∧
    (∃ ctx, mainStartup none sampleCfgMcp (fun _ _ => []) [] emptySearchFn =
      .running ctx ∧ ctx.configError = some (apiKeyNotConfiguredMsg "VOYAGE_API_KEY") ∧
      ctx.embedding = none) ∧
    searchDocsHandler ⟨"player", "all", some 5⟩
        { embedding := none, tables := [], searchFn := emptySearchFn
          config := sampleCfgMcp
          configError := some (apiKeyNotConfiguredMsg "VOYAGE_API_KEY") } =
      ToolResult.err (apiKeyNotConfiguredMsg "VOYAGE_API_KEY") := by
  have hrest := config_error_propagation none sampleCfgRest (fun _ _ => []) []
    emptySearchFn (apiKeyNotConfiguredMsg "VOYAGE_API_KEY") rfl
  have hmcp := config_error_propagation none sampleCfgMcp (fun _ _ => []) []
    emptySearchFn (apiKeyNotConfiguredMsg "VOYAGE_API_KEY") rfl
  exact ⟨hrest.1 (by decide), hmcp.2.1 rfl,
    (hmcp.2.2 _ rfl ⟨"player", "all", some 5⟩).1⟩

/-- C7: `docs_stats` against a table that has not been ingested returns
`{success:false}`; after the table is seeded with exactly one record of type
`"guide"` and category `"plugin"`, it returns `{success:true}` with
`totalDocs = 1`, `byType = {guide: 1}` and `byCategory = {plugin: 1}` (all
other keys absent, i.e. counted 0). -/
theorem docs_stats_end_to_end (ctx : ToolContext) (row : DocsRecord)
    (hcfg : ctx.configError = none) :
    (ctx.tables.lookup ctx.config.docsTable = none →
      (docsStatsHandler ctx).success = false) ∧
    (ctx.tables.lookup ctx.config.docsTable = some [row] →
      row.type = some "guide" → row.category = some "plugin" →
      ∃ s, docsStatsHandler ctx = .ok s ∧ s.totalDocs = 1 ∧
        s.byType "guide" = 1 ∧ s.byCategory "plugin" = 1 ∧
        (∀ t, t ≠ "guide" → s.byType t = 0) ∧
        (∀ c, c ≠ "plugin" → s.byCategory c = 0)) := by
  constructor
  · intro hnone
    simp [docsStatsHandler, hcfg, tableExists, hnone, ToolResult.success]
  · intro hsome htype hcat
    have hh : docsStatsHandler ctx =
        .ok ⟨1, bump (fun _ => 0) "plugin", bump (fun _ => 0) "guide"⟩ := by
      simp [docsStatsHandler, hcfg, tableExists, tableRows, hsome, queryAll,
        Db.pageScan, htype, hcat, jsOr]
    refine ⟨_, hh, rfl, by simp [bump], by simp [bump], ?_, ?_⟩
    · intro t ht
      simp [bump, ht]
    · intro c hc
      simp [bump, hc]

theorem docs_stats_end_to_end_witness :
    (docsStatsHandler unseededCtx).success = false ∧
    (∃ s, docsStatsHandler seededCtx = .ok s ∧ s.totalDocs = 1 ∧
      s.byType "guide" = 1 ∧ s.byCategory "plugin" = 1) := by
  have hu := (docs_stats_end_to_end unseededCtx sampleDocRow rfl).1 rfl
  have hs := (docs_stats_end_to_end seededCtx sampleDocRow rfl).2 rfl rfl rfl
  obtain ⟨s, h1, h2, h3, h4, -⟩ := hs
  exact ⟨hu, s, h1, h2, h3, h4⟩

/-- C9: the paged full-table scan used by the stats operations terminates and
visits every row exactly once: with batch size 5000 it stops as soon as a
batch is empty or smaller than the page size, every yielded batch is nonempty
and bounded by 5000 rows, and the concatenation of the batches is the whole
table — for the code table of `db.ts` `getStats` and for the docs table
`queryAll` alike. -/
theorem stats_scan_terminates {α : Type} (rows : List α)
    (drows : List DocsRecord) :
    (Db.pageScan 5000 rows 0).flatten = rows ∧
    (∀ batch ∈ Db.pageScan 5000 rows 0, batch ≠ [] ∧ batch.length ≤ 5000) ∧
    (queryAll drows).flatten = drows := by
  refine ⟨?_, pageScan_batches 5000 rows 0, ?_⟩
  · simpa using pageScan_flatten 5000 (by norm_num) rows 0
  · simpa [queryAll] using pageScan_flatten 5000 (by norm_num) drows 0

theorem stats_scan_terminates_witness :
    (Db.pageScan 5000 ["r1", "r2", "r3"] 0).flatten = ["r1", "r2", "r3"] ∧
    (queryAll [sampleDocRow]).flatten = [sampleDocRow] := by
  have h := stats_scan_terminates ["r1", "r2", "r3"] [sampleDocRow]
  exact ⟨h.1, h.2.2⟩

end HytaleRag
